import Mathlib

/-!
Shallow embedding of the nofx trading core: the decision validator
(`validateDecision`, `validateDecisions`), the decision sequencer
(`sortDecisionsByPriority`), the execution dispatcher
(`executeOpenLong`/`executeOpenShort`), the automatic profit/loss
controller (`checkTrailingStopAndPartialTP` per position), the loss
circuit breaker (`checkStopLossTriggered`), and the cycle orchestrator
(`runCycle` phase structure).

Go `float64` values are modelled as rationals (`ℚ`), Go `int` as `ℤ`
where the sign matters, and Go strings as `String`.  Fallible Go
functions returning `error` are modelled with `Except`.
-/

set_option autoImplicit false

namespace Nofx

/-- `Decision` mirrors the Go struct `decision.Decision`: one proposed
trading intent produced by the proposal source. -/
structure Decision where
  symbol : String
  action : String
  leverage : ℤ
  positionSizeUSD : ℚ
  entryPrice : ℚ
  stopLoss : ℚ
  takeProfit : ℚ
  confidence : ℤ
  riskUSD : ℚ
  reasoning : String
  invalidationCondition : String
  deriving DecidableEq, Repr

/-- `getActionPriority` mirrors the closure of the same name inside
`sortDecisionsByPriority` in `auto_trader.go`: close actions first (1),
open actions second (2), hold/wait third (3), anything else last (999). -/
def getActionPriority (action : String) : ℕ :=
  if action = "close_long" ∨ action = "close_short" then 1
  else if action = "open_long" ∨ action = "open_short" then 2
  else if action = "hold" ∨ action = "wait" then 3
  else 999

/-- One step of the inner `j` loop of `sortDecisionsByPriority`:
swap elements `i` and `j` when the priority at `i` is strictly
greater than the priority at `j`. -/
def swapIfGreater (l : List Decision) (i j : ℕ) : List Decision :=
  match l.get? i, l.get? j with
  | some x, some y =>
      if getActionPriority y.action < getActionPriority x.action then
        (l.set i y).set j x
      else l
  | _, _ => l

/-- The inner `for j := i+1; j < n; j++` loop of `sortDecisionsByPriority`,
written as a fold over the index sequence `i+1, …, n-1`. -/
def sortInnerLoop (n i : ℕ) (l : List Decision) : List Decision :=
  (List.range' (i + 1) (n - (i + 1))).foldl (fun acc j => swapIfGreater acc i j) l

/-- The outer `for i := 0; i < n-1; i++` loop of `sortDecisionsByPriority`,
written as a fold over the index sequence `0, …, n-2`. -/
def sortOuterLoop (n : ℕ) (l : List Decision) : List Decision :=
  (List.range (n - 1)).foldl (fun acc i => sortInnerLoop n i acc) l

/-- `sortDecisionsByPriority` mirrors the Go function of the same name in
`auto_trader.go`: a copy of the batch is reordered in place by the
double swap loop keyed on `getActionPriority`. -/
def sortDecisionsByPriority (decisions : List Decision) : List Decision :=
  if decisions.length ≤ 1 then decisions
  else sortOuterLoop decisions.length decisions

/-! ### Decision validator (engine.go / part_001) -/

/-- Rejection reasons produced by `validateDecision`; each constructor
corresponds to one `fmt.Errorf` site in the Go function. -/
inductive RejectReason where
  | invalidAction
  | badLeverage
  | badPositionSize
  | positionValueTooLarge
  | badEntryPrice
  | badStopTakeProfit
  | emptyInvalidationCondition
  | longStopNotBelowEntry
  | longTakeProfitNotAboveEntry
  | shortStopNotAboveEntry
  | shortTakeProfitNotBelowEntry
  | riskRewardTooLow
  | decreaseBadSize
  | decreaseNoReasoning
  | updateBadPrices
  | updateNoReasoning
  deriving DecidableEq, Repr

/-- The `validActions` set of `validateDecision`. -/
def validActions : List String :=
  ["open_long", "open_short", "close_long", "close_short",
   "increase_long", "increase_short", "decrease_long", "decrease_short",
   "hold", "wait", "update_loss_profit"]

/-- `isBlank s` mirrors the Go check `strings.TrimSpace(s) == ""`: the
string trims to empty exactly when every character is whitespace. -/
def isBlank (s : String) : Bool :=
  s.data.all Char.isWhitespace

/-- Whether the action is one of the four open/increase actions that get
the full parameter validation in `validateDecision`. -/
def isOpenOrIncrease (action : String) : Prop :=
  action = "open_long" ∨ action = "open_short" ∨
  action = "increase_long" ∨ action = "increase_short"

instance (action : String) : Decidable (isOpenOrIncrease action) := by
  unfold isOpenOrIncrease; infer_instance

/-- `validateDecision` mirrors the Go function of the same name in
`decision/engine.go`: it checks one intent against the account equity and
the configured leverage ceilings, returning the first failing rule. -/
def validateDecision (d : Decision) (accountEquity : ℚ)
    (btcEthLeverage altcoinLeverage : ℤ) : Except RejectReason Unit :=
  if d.action ∉ validActions then .error .invalidAction
  else if isOpenOrIncrease d.action then
    let isBtcEth := d.symbol = "BTCUSDT" ∨ d.symbol = "ETHUSDT"
    let maxLeverage := if isBtcEth then btcEthLeverage else altcoinLeverage
    let maxPositionValue := if isBtcEth then accountEquity * 10 else accountEquity * 5
    if d.leverage ≤ 0 ∨ maxLeverage < d.leverage then .error .badLeverage
    else if d.positionSizeUSD ≤ 0 then .error .badPositionSize
    else if maxPositionValue + maxPositionValue * (1/100) < d.positionSizeUSD then
      .error .positionValueTooLarge
    else if d.entryPrice ≤ 0 then .error .badEntryPrice
    else if d.stopLoss ≤ 0 ∨ d.takeProfit ≤ 0 then .error .badStopTakeProfit
    else if isBlank d.invalidationCondition then .error .emptyInvalidationCondition
    else if d.action = "open_long" ∨ d.action = "increase_long" then
      if d.entryPrice ≤ d.stopLoss then .error .longStopNotBelowEntry
      else if d.takeProfit ≤ d.entryPrice then .error .longTakeProfitNotAboveEntry
      else
        let riskPercent := (d.entryPrice - d.stopLoss) / d.entryPrice * 100
        let rewardPercent := (d.takeProfit - d.entryPrice) / d.entryPrice * 100
        let quotient := if 0 < riskPercent then rewardPercent / riskPercent else 0
        if quotient < 2 then .error .riskRewardTooLow else .ok ()
    else
      if d.stopLoss ≤ d.entryPrice then .error .shortStopNotAboveEntry
      else if d.entryPrice ≤ d.takeProfit then .error .shortTakeProfitNotBelowEntry
      else
        let riskPercent := (d.stopLoss - d.entryPrice) / d.entryPrice * 100
        let rewardPercent := (d.entryPrice - d.takeProfit) / d.entryPrice * 100
        let quotient := if 0 < riskPercent then rewardPercent / riskPercent else 0
        if quotient < 2 then .error .riskRewardTooLow else .ok ()
  else if d.action = "decrease_long" ∨ d.action = "decrease_short" then
    if d.positionSizeUSD ≤ 0 then .error .decreaseBadSize
    else if isBlank d.reasoning then .error .decreaseNoReasoning
    else .ok ()
  else if d.action = "update_loss_profit" then
    if d.stopLoss ≤ 0 ∨ d.takeProfit ≤ 0 then .error .updateBadPrices
    else if isBlank d.reasoning then .error .updateNoReasoning
    else .ok ()
  else .ok ()

/-- The loop of `validateDecisions`, carrying the index of the intent
under validation. -/
def validateDecisionsFrom (accountEquity : ℚ) (btcEthLeverage altcoinLeverage : ℤ) :
    ℕ → List Decision → Except (ℕ × RejectReason) Unit
  | _, [] => .ok ()
  | i, d :: rest =>
      match validateDecision d accountEquity btcEthLeverage altcoinLeverage with
      | .error r => .error (i, r)
      | .ok _ => validateDecisionsFrom accountEquity btcEthLeverage altcoinLeverage (i + 1) rest

/-- `validateDecisions` mirrors the Go function of the same name: it
validates the batch front to back and stops at the first failing intent,
reporting its (0-based) index and the reason; the whole batch is rejected. -/
def validateDecisions (decisions : List Decision) (accountEquity : ℚ)
    (btcEthLeverage altcoinLeverage : ℤ) : Except (ℕ × RejectReason) Unit :=
  validateDecisionsFrom accountEquity btcEthLeverage altcoinLeverage 0 decisions

/-! ### Position tracking state and trader configuration (auto_trader.go) -/

/-- `PnLTracking` mirrors the Go struct of the same name in
`auto_trader.go`: the per-(symbol, side) state the core owns across
cycles. -/
structure PnLTracking where
  maxProfitPct : ℚ
  maxLossPct : ℚ
  takeProfitPrice : ℚ
  stopLossPrice : ℚ
  entryPrice : ℚ
  partialTP50Executed : Bool
  partialTP100Executed : Bool
  trailingStopActivated : Bool
  deriving DecidableEq, Repr

/-- The slice of `AutoTraderConfig` read by the functions modelled here. -/
structure TraderConfig where
  enableTrailingStop : Bool
  trailingStopDistance : ℚ
  trailingStopActivation : ℚ
  enablePartialTakeProfit : Bool
  enableExponentialBackoff : Bool
  backoffBaseMinutes : ℚ
  backoffMultiplier : ℚ
  backoffMaxMinutes : ℚ
  deriving DecidableEq, Repr

/-! ### Execution dispatcher (executeOpenLongWithRecord / executeOpenShortWithRecord) -/

/-- The venue calls the dispatcher can issue through the `Trader`
interface. -/
inductive VenueCall where
  | openLong (symbol : String) (quantity : ℚ) (leverage : ℤ)
  | openShort (symbol : String) (quantity : ℚ) (leverage : ℤ)
  | setStopLoss (symbol side : String) (quantity price : ℚ)
  | setTakeProfit (symbol side : String) (quantity price : ℚ)
  | closeLong (symbol : String) (quantity : ℚ)
  | closeShort (symbol : String) (quantity : ℚ)
  deriving DecidableEq, Repr

/-- Dispatcher errors; `antiStacking` is the rejection issued when a live
position already exists for the intent's (symbol, side) key. -/
inductive ExecError where
  | antiStacking
  deriving DecidableEq, Repr

/-- The fields of a live position snapshot the dispatcher's anti-stacking
check reads (`pos["symbol"]` and `pos["side"]`). -/
structure LivePos where
  symbol : String
  side : String
  deriving DecidableEq, Repr

deriving instance DecidableEq for Except

/-- Result of dispatching one open intent: the venue calls issued, and
either an error or the freshly seeded tracking state. -/
structure OpenOutcome where
  calls : List VenueCall
  result : Except ExecError PnLTracking
  deriving DecidableEq, Repr

/-- `executeOpenLong` mirrors `executeOpenLongWithRecord` in
`auto_trader.go`: `positions` is the venue's live positions at dispatch
time (what `GetPositions` returns when it succeeds) and `reReadFailed`
is whether that re-read returned an error.  The anti-stacking guard is
wrapped in `if err == nil` in the Go code, so it runs only when the
re-read succeeded; on a failed re-read the guard is skipped.  When the
guard does not reject, the dispatcher computes
`quantity = positionSizeUSD / currentPrice`, opens at the venue, seeds
the tracking state, sets the stop-loss order, and sets the take-profit
order only when partial take-profit is disabled. -/
def executeOpenLong (cfg : TraderConfig) (d : Decision)
    (positions : List LivePos) (reReadFailed : Bool) (currentPrice : ℚ) : OpenOutcome :=
  if ¬reReadFailed ∧ positions.any (fun p => p.symbol = d.symbol ∧ p.side = "long") then
    { calls := [], result := .error .antiStacking }
  else
    let quantity := d.positionSizeUSD / currentPrice
    let tracking : PnLTracking :=
      { maxProfitPct := 0, maxLossPct := 0
        takeProfitPrice := d.takeProfit, stopLossPrice := d.stopLoss
        entryPrice := currentPrice
        partialTP50Executed := false, partialTP100Executed := false
        trailingStopActivated := false }
    { calls :=
        [.openLong d.symbol quantity d.leverage,
         .setStopLoss d.symbol "LONG" quantity d.stopLoss] ++
        (if cfg.enablePartialTakeProfit then []
         else [.setTakeProfit d.symbol "LONG" quantity d.takeProfit])
      result := .ok tracking }

/-- `executeOpenShort` mirrors `executeOpenShortWithRecord` in
`auto_trader.go`; see `executeOpenLong` (including the skipped guard on
a failed positions re-read). -/
def executeOpenShort (cfg : TraderConfig) (d : Decision)
    (positions : List LivePos) (reReadFailed : Bool) (currentPrice : ℚ) : OpenOutcome :=
  if ¬reReadFailed ∧ positions.any (fun p => p.symbol = d.symbol ∧ p.side = "short") then
    { calls := [], result := .error .antiStacking }
  else
    let quantity := d.positionSizeUSD / currentPrice
    let tracking : PnLTracking :=
      { maxProfitPct := 0, maxLossPct := 0
        takeProfitPrice := d.takeProfit, stopLossPrice := d.stopLoss
        entryPrice := currentPrice
        partialTP50Executed := false, partialTP100Executed := false
        trailingStopActivated := false }
    { calls :=
        [.openShort d.symbol quantity d.leverage,
         .setStopLoss d.symbol "SHORT" quantity d.stopLoss] ++
        (if cfg.enablePartialTakeProfit then []
         else [.setTakeProfit d.symbol "SHORT" quantity d.takeProfit])
      result := .ok tracking }

/-! ### Automatic profit/loss controller (checkTrailingStopAndPartialTP) -/

/-- Events produced by the profit/loss controller for one position in one
cycle; the payload of the partial take-profit events is the closed
quantity. -/
inductive TPEvent where
  | trailingClose (quantity : ℚ)
  | partialTP50 (quantity : ℚ)
  | partialTP100 (quantity : ℚ)
  deriving DecidableEq, Repr

/-- The 50% and 100% partial take-profit target prices as computed inside
`checkTrailingStopAndPartialTP`: for a long, `priceMove` is
`takeProfit − entry` and the 50% target sits half way up; for a short,
`priceMove` is `entry − takeProfit` and the 50% target sits half way
down.  Returns `(target50, target100)`. -/
def partialTPTargets (side : String) (entryPrice takeProfitPrice : ℚ) : ℚ × ℚ :=
  if side = "long" then
    let priceMove := takeProfitPrice - entryPrice
    (entryPrice + priceMove * (1/2), takeProfitPrice)
  else
    let priceMove := entryPrice - takeProfitPrice
    (entryPrice - priceMove * (1/2), takeProfitPrice)

/-- The per-cycle update of the tracked extrema performed by
`buildTradingContext`: extend `maxProfitPct` / `maxLossPct` when a new
extreme is observed. -/
def updateExtremes (t : PnLTracking) (pnlPct : ℚ) : PnLTracking :=
  { t with
    maxProfitPct := if t.maxProfitPct < pnlPct then pnlPct else t.maxProfitPct
    maxLossPct := if pnlPct < t.maxLossPct then pnlPct else t.maxLossPct }

/-- The trailing-stop activation block of `checkTrailingStopAndPartialTP`:
set the one-shot flag when the feature is enabled, the flag is not yet
set, and this cycle's PnL% reaches the activation threshold. -/
def trailingActivate (cfg : TraderConfig) (pnlPct : ℚ) (t : PnLTracking) :
    PnLTracking :=
  if cfg.enableTrailingStop ∧ ¬t.trailingStopActivated ∧
      cfg.trailingStopActivation * 100 ≤ pnlPct then
    { t with trailingStopActivated := true }
  else t

/-- Whether the mark price has reached the 50% partial take-profit
target of the position (≥ for a long, ≤ for a short). -/
def reachedTarget50 (side : String) (markPrice : ℚ) (t : PnLTracking) : Prop :=
  (side = "long" ∧ (partialTPTargets side t.entryPrice t.takeProfitPrice).1 ≤ markPrice) ∨
  (side = "short" ∧ markPrice ≤ (partialTPTargets side t.entryPrice t.takeProfitPrice).1)

/-- Whether the mark price has reached the 100% partial take-profit
target of the position (≥ for a long, ≤ for a short). -/
def reachedTarget100 (side : String) (markPrice : ℚ) (t : PnLTracking) : Prop :=
  (side = "long" ∧ (partialTPTargets side t.entryPrice t.takeProfitPrice).2 ≤ markPrice) ∨
  (side = "short" ∧ markPrice ≤ (partialTPTargets side t.entryPrice t.takeProfitPrice).2)

instance (side : String) (m : ℚ) (t : PnLTracking) : Decidable (reachedTarget50 side m t) := by
  unfold reachedTarget50; infer_instance

instance (side : String) (m : ℚ) (t : PnLTracking) : Decidable (reachedTarget100 side m t) := by
  unfold reachedTarget100; infer_instance

/-- The partial take-profit block of `checkTrailingStopAndPartialTP`:
when enabled and a take-profit price is on record, check the 50% target
and then the 100% target, each (when its one-shot flag is still unset
and the target reached) closing `0.5 * quantity` at the venue and
setting its flag.  Venue close calls are assumed to succeed. -/
def partialTPStep (cfg : TraderConfig) (side : String)
    (markPrice quantity : ℚ) (t : PnLTracking) : PnLTracking × List TPEvent :=
  if cfg.enablePartialTakeProfit ∧ 0 < t.takeProfitPrice then
    let fire50 := ¬t.partialTP50Executed ∧ reachedTarget50 side markPrice t
    let t2 := if fire50 then { t with partialTP50Executed := true } else t
    let evs1 : List TPEvent := if fire50 then [.partialTP50 (quantity * (1/2))] else []
    let fire100 := ¬t2.partialTP100Executed ∧ reachedTarget100 side markPrice t2
    let t3 := if fire100 then { t2 with partialTP100Executed := true } else t2
    let evs2 : List TPEvent := if fire100 then [.partialTP100 (quantity * (1/2))] else []
    (t3, evs1 ++ evs2)
  else (t, [])

/-- The body of `checkTrailingStopAndPartialTP` for one position, with the
venue close calls assumed to succeed.  `markPrice`, `pnlPct` and
`quantity` are the fields of the live snapshot the Go code reads.
Mirrors the control flow exactly: trailing-stop activation (one-shot),
trailing-stop trigger (which `continue`s past the partial take-profit
checks, closing everything), then the partial take-profit block. -/
def checkPositionTP (cfg : TraderConfig) (side : String)
    (markPrice pnlPct quantity : ℚ) (t : PnLTracking) :
    PnLTracking × List TPEvent :=
  let t1 := trailingActivate cfg pnlPct t
  if cfg.enableTrailingStop ∧ t1.trailingStopActivated ∧
      cfg.trailingStopDistance ≤ (t1.maxProfitPct - pnlPct) / 100 then
    (t1, [.trailingClose quantity])
  else partialTPStep cfg side markPrice quantity t1

/-- The quantity closed by a controller event. -/
def TPEvent.closedQuantity : TPEvent → ℚ
  | .trailingClose q => q
  | .partialTP50 q => q
  | .partialTP100 q => q

/-- The state of one tracked position across cycles: its tracking record
and the live quantity still open at the venue. -/
structure PosWorld where
  tracking : PnLTracking
  quantity : ℚ
  deriving DecidableEq, Repr

/-- One orchestrator cycle as seen by a single tracked position:
`buildTradingContext` refreshes the extrema from the cycle's PnL%, then
`checkTrailingStopAndPartialTP` runs on the snapshot; the venue quantity
shrinks by whatever the controller closed. -/
def stepPositionCycle (cfg : TraderConfig) (side : String) (w : PosWorld)
    (markPrice pnlPct : ℚ) : PosWorld × List TPEvent :=
  let t1 := updateExtremes w.tracking pnlPct
  let out := checkPositionTP cfg side markPrice pnlPct w.quantity t1
  ({ tracking := out.1,
     quantity := w.quantity - (out.2.map TPEvent.closedQuantity).sum }, out.2)

/-- Run a tracked position through a list of cycles, each given as a
`(markPrice, pnlPct)` pair, collecting all controller events. -/
def runPositionCycles (cfg : TraderConfig) (side : String) :
    PosWorld → List (ℚ × ℚ) → PosWorld × List TPEvent
  | w, [] => (w, [])
  | w, c :: rest =>
      let out := stepPositionCycle cfg side w c.1 c.2
      let outRest := runPositionCycles cfg side out.1 rest
      (outRest.1, out.2 ++ outRest.2)

/-- Count of 50%-target partial take-profit executions in an event list. -/
def countTP50 (evs : List TPEvent) : ℕ :=
  (evs.filter fun e => match e with | .partialTP50 _ => true | _ => false).length

/-- Count of 100%-target partial take-profit executions in an event list. -/
def countTP100 (evs : List TPEvent) : ℕ :=
  (evs.filter fun e => match e with | .partialTP100 _ => true | _ => false).length

/-! ### Loss circuit breaker (checkStopLossTriggered) -/

/-- The breaker state fields of `AutoTrader`. -/
structure BreakerState where
  stopLossCount : ℕ
  lastStopLossTime : ℚ
  backoffUntil : ℚ
  lastTotalEquity : ℚ
  deriving DecidableEq, Repr

/-- The data `checkStopLossTriggered` reads about one tracked position
that is absent from the live snapshot: its side, the freshly fetched
market price, and the tracked stop-loss and entry prices. -/
structure VanishedPos where
  side : String
  currentPrice : ℚ
  stopLossPrice : ℚ
  entryPrice : ℚ
  deriving DecidableEq, Repr

/-- The classification logic of `checkStopLossTriggered` for one vanished
position: a loss is counted only when equity decreased and, when a stop
price is recorded, the price is on the stop side of it within 5%
tolerance; when only an entry price is recorded, the price is not on the
profitable side of it; when neither is recorded, the equity decrease
alone decides. -/
def classifyStopLoss (equityDecreased : Bool) (p : VanishedPos) : Bool :=
  if ¬equityDecreased then false
  else if 0 < p.stopLossPrice then
    if p.side = "long" then
      decide (p.currentPrice ≤ p.stopLossPrice * (105/100))
    else
      decide (p.stopLossPrice * (95/100) ≤ p.currentPrice)
  else if 0 < p.entryPrice then
    if p.side = "long" then
      decide (¬(p.entryPrice < p.currentPrice))
    else
      decide (¬(p.currentPrice < p.entryPrice))
  else true

/-- The backoff duration in minutes computed on the `stopLossCount`-th
confirmed loss: `base · multiplier^(count−1)`, capped at the configured
maximum.  Mirrors the `for i := 1; i < count; i++` doubling loop. -/
def backoffMinutes (cfg : TraderConfig) (count : ℕ) : ℚ :=
  let raw := cfg.backoffBaseMinutes * cfg.backoffMultiplier ^ (count - 1)
  if cfg.backoffMaxMinutes < raw then cfg.backoffMaxMinutes else raw

/-- `checkStopLossTriggered` mirrors the Go method: with the breaker
enabled it computes once whether equity decreased since the previous
cycle, classifies every vanished tracked position, increments the
counter and restarts the backoff window for each confirmed loss, and
finally records the current equity (strictly after classification). -/
def checkStopLossTriggered (cfg : TraderConfig) (st : BreakerState)
    (now currentEquity : ℚ) (vanished : List VanishedPos) : BreakerState :=
  if ¬cfg.enableExponentialBackoff then st
  else
    let equityDecreased :=
      decide (0 < st.lastTotalEquity ∧ currentEquity < st.lastTotalEquity)
    let st1 := vanished.foldl
      (fun s p =>
        if classifyStopLoss equityDecreased p then
          let count := s.stopLossCount + 1
          { s with
            stopLossCount := count
            lastStopLossTime := now
            backoffUntil := now + backoffMinutes cfg count }
        else s)
      st
    { st1 with lastTotalEquity := currentEquity }

/-! ### Cycle orchestrator (runCycle) -/

/-- The phases of `runCycle`, in dispatch order. -/
inductive CyclePhase where
  | buildContext
  | detectLossEvents
  | profitLossController
  | solicitProposals
  | sortDecisions
  | dispatchDecisions
  | persistRecord
  deriving DecidableEq, Repr

/-- The phase structure of `runCycle` on its success path: when the
exponential backoff is active (`now < backoffUntil`) the method logs,
persists the cycle record and returns before anything else; likewise for
the legacy risk-control pause (`now < stopUntil`); otherwise the full
pipeline runs. -/
def runCyclePhases (enableBackoff : Bool) (now backoffUntil stopUntil : ℚ) :
    List CyclePhase :=
  if enableBackoff ∧ now < backoffUntil then [.persistRecord]
  else if now < stopUntil then [.persistRecord]
  else [.buildContext, .detectLossEvents, .profitLossController,
        .solicitProposals, .sortDecisions, .dispatchDecisions, .persistRecord]

/-! ### Batch processing (parseFullDecisionResponse / runCycle) -/

/-- The validation-and-dispatch pipeline applied to one proposed batch:
`validateDecisions` rejects the whole batch at the first failing intent
(the error aborts the cycle in `runCycle` before anything is executed);
otherwise the batch is sequenced and every intent is dispatched in the
sorted order. -/
def processDecisionBatch (decisions : List Decision) (accountEquity : ℚ)
    (btcEthLeverage altcoinLeverage : ℤ) :
    Except (ℕ × RejectReason) (List Decision) :=
  match validateDecisions decisions accountEquity btcEthLeverage altcoinLeverage with
  | .error e => .error e
  | .ok _ => .ok (sortDecisionsByPriority decisions)

/-! ### Spec-side definitions (used to compare the code with the
specification's wording) -/

/-- The specification's risk percentage for an intent:
`|entry − stop| / entry`, expressed —as in the code— in percent. -/
def specRiskPct (d : Decision) : ℚ :=
  |d.entryPrice - d.stopLoss| / d.entryPrice * 100

/-- The specification's reward percentage for an intent:
`|target − entry| / entry`, expressed —as in the code— in percent. -/
def specRewardPct (d : Decision) : ℚ :=
  |d.takeProfit - d.entryPrice| / d.entryPrice * 100

/-- The price-side condition the specification claims is required for a
loss classification: against the tracked stop-loss price with 5%
tolerance when one is recorded, otherwise against the entry price. -/
def claimedLossPriceCond (p : VanishedPos) : Prop :=
  if 0 < p.stopLossPrice then
    if p.side = "long" then p.currentPrice ≤ p.stopLossPrice * (105/100)
    else p.stopLossPrice * (95/100) ≤ p.currentPrice
  else
    if p.side = "long" then p.currentPrice ≤ p.entryPrice
    else p.entryPrice ≤ p.currentPrice

instance (p : VanishedPos) : Decidable (claimedLossPriceCond p) := by
  unfold claimedLossPriceCond; infer_instance

/-- The gate conditions of `validateDecision` that run before the
risk:reward rule: known action, open/increase shape, leverage in range,
positive size, size under the per-class cap, positive prices, non-blank
invalidation condition, and the directional sanity rule of the intent's
side.  An intent "passes the directional sanity checks" exactly when
validation execution reaches the risk:reward computation. -/
def passesDirectionalGate (d : Decision) (accountEquity : ℚ)
    (btcEthLeverage altcoinLeverage : ℤ) : Prop :=
  isOpenOrIncrease d.action ∧
  0 < d.leverage ∧
  d.leverage ≤ (if d.symbol = "BTCUSDT" ∨ d.symbol = "ETHUSDT"
                then btcEthLeverage else altcoinLeverage) ∧
  0 < d.positionSizeUSD ∧
  d.positionSizeUSD ≤
    (if d.symbol = "BTCUSDT" ∨ d.symbol = "ETHUSDT"
     then accountEquity * 10 else accountEquity * 5) +
    (if d.symbol = "BTCUSDT" ∨ d.symbol = "ETHUSDT"
     then accountEquity * 10 else accountEquity * 5) * (1/100) ∧
  0 < d.entryPrice ∧ 0 < d.stopLoss ∧ 0 < d.takeProfit ∧
  isBlank d.invalidationCondition = false ∧
  (if d.action = "open_long" ∨ d.action = "increase_long" then
    d.stopLoss < d.entryPrice ∧ d.entryPrice < d.takeProfit
   else
    d.entryPrice < d.stopLoss ∧ d.takeProfit < d.entryPrice)

/-! ### Sample inputs -/

/-- A minimal intent carrying only a symbol and an action. -/
def mkD (symbol action : String) : Decision :=
  { symbol := symbol, action := action, leverage := 0, positionSizeUSD := 0,
    entryPrice := 0, stopLoss := 0, takeProfit := 0, confidence := 0,
    riskUSD := 0, reasoning := "", invalidationCondition := "" }

/-- An open-long intent with entry 100, stop 98, target 103: risk 2%,
reward 3%, risk:reward 1.5. -/
def dRR15 : Decision :=
  { symbol := "BTCUSDT", action := "open_long", leverage := 5, positionSizeUSD := 1000,
    entryPrice := 100, stopLoss := 98, takeProfit := 103, confidence := 80,
    riskUSD := 20, reasoning := "r", invalidationCondition := "c" }

/-- The same intent with target 104: risk 2%, reward 4%, risk:reward 2.0. -/
def dRR20 : Decision := { dRR15 with takeProfit := 104 }

/-- A configuration with every optional feature turned off. -/
def cfgOff : TraderConfig :=
  { enableTrailingStop := false, trailingStopDistance := 0, trailingStopActivation := 0,
    enablePartialTakeProfit := false, enableExponentialBackoff := false,
    backoffBaseMinutes := 0, backoffMultiplier := 0, backoffMaxMinutes := 0 }

/-- Trailing stop enabled with activation 5% and distance 3% as stored in
the configuration (fractions of one). -/
def cfgTrail : TraderConfig :=
  { cfgOff with
    enableTrailingStop := true
    trailingStopActivation := 5/100
    trailingStopDistance := 3/100 }

/-- Partial take-profit enabled, trailing stop disabled. -/
def cfgPT : TraderConfig :=
  { cfgOff with enablePartialTakeProfit := true }

/-- Exponential backoff enabled: base 45 minutes, multiplier 2.67,
maximum 360 minutes (the defaults set in `NewAutoTrader`). -/
def cfgBackoff : TraderConfig :=
  { cfgOff with
    enableExponentialBackoff := true
    backoffBaseMinutes := 45
    backoffMultiplier := 267/100
    backoffMaxMinutes := 360 }

/-- The tracking state seeded by a fresh open: entry 50000, take-profit
55000, stop 48000, no flag set. -/
def trackLong0 : PnLTracking :=
  { maxProfitPct := 0, maxLossPct := 0, takeProfitPrice := 55000,
    stopLossPrice := 48000, entryPrice := 50000,
    partialTP50Executed := false, partialTP100Executed := false,
    trailingStopActivated := false }

/-- A tracked long of quantity 1 just after opening. -/
def worldLong0 : PosWorld := { tracking := trackLong0, quantity := 1 }

/-- A tracked position with no take-profit, used to exercise the trailing
stop in isolation. -/
def worldTrail0 : PosWorld :=
  { tracking := { trackLong0 with takeProfitPrice := 0, stopLossPrice := 0, entryPrice := 0 },
    quantity := 1 }

/-- A vanished tracked position with neither a stop price nor an entry
price on record (the tracking record created when a position is first
observed rather than opened by the dispatcher), last seen at price 100. -/
def vanishedNoPrices : VanishedPos :=
  { side := "long", currentPrice := 100, stopLossPrice := 0, entryPrice := 0 }

/-- Breaker state that recorded equity 100 on the previous cycle. -/
def breaker100 : BreakerState :=
  { stopLossCount := 0, lastStopLossTime := 0, backoffUntil := 0, lastTotalEquity := 100 }

/-! ## Theorems -/

theorem long_ne_short : (("long" : String) = "short") = False := by simp

theorem short_ne_long : (("short" : String) = "long") = False := by simp

theorem isBlank_c : isBlank "c" = false := by decide

theorem isBlank_r : isBlank "r" = false := by decide

/-- Replacing an element known to sit at index `k` and re-consing it in
front is a permutation. -/
theorem cons_set_perm {α : Type _} (t : List α) :
    ∀ (k : ℕ) (x y : α), t.get? k = some y →
      List.Perm (y :: t.set k x) (x :: t) := by
  induction t with
  | nil =>
      intro k x y h
      simp at h
  | cons b t2 ih =>
      intro k x y h
      cases k with
      | zero =>
          have hby : b = y := by simpa using h
          rw [← hby]
          simpa [List.set] using List.Perm.swap x b t2
      | succ k =>
          have h2 : t2.get? k = some y := by simpa using h
          have hstep : (b :: t2).set (k + 1) x = b :: t2.set k x := by simp [List.set]
          rw [hstep]
          exact (List.Perm.swap b y _).trans
            (((ih k x y h2).cons b).trans (List.Perm.swap x b t2))

/-- Swapping the entries at two positions of a list (by a pair of `set`
calls) is a permutation. -/
theorem set_set_perm {α : Type _} (l : List α) :
    ∀ (i j : ℕ) (x y : α), l.get? i = some x → l.get? j = some y →
      List.Perm ((l.set i y).set j x) l := by
  induction l with
  | nil =>
      intro i j x y hi hj
      simp at hi
  | cons a t ih =>
      intro i j x y hi hj
      cases i with
      | zero =>
          have hax : a = x := by simpa using hi
          cases j with
          | zero =>
              have hay : a = y := by simpa using hj
              rw [← hax, ← hay]
              simp [List.set]
          | succ j =>
              have hj2 : t.get? j = some y := by simpa using hj
              rw [← hax]
              simpa [List.set] using cons_set_perm t j a y hj2
      | succ i =>
          have hi2 : t.get? i = some x := by simpa using hi
          cases j with
          | zero =>
              have hay : a = y := by simpa using hj
              rw [← hay]
              simpa [List.set] using cons_set_perm t i a x hi2
          | succ j =>
              have hj2 : t.get? j = some y := by simpa using hj
              simpa [List.set] using (ih i j x y hi2 hj2).cons a

/-- One conditional swap of the sequencer is a permutation. -/
theorem swapIfGreater_perm (l : List Decision) (i j : ℕ) :
    List.Perm (swapIfGreater l i j) l := by
  unfold swapIfGreater
  cases hi : l.get? i with
  | none => exact List.Perm.refl l
  | some x =>
      cases hj : l.get? j with
      | none => exact List.Perm.refl l
      | some y =>
          show List.Perm
            (if getActionPriority y.action < getActionPriority x.action
              then (l.set i y).set j x else l) l
          split_ifs with h
          · exact set_set_perm l i j x y hi hj
          · exact List.Perm.refl l

/-- A fold whose every step permutes the accumulator list yields a
permutation of the initial list. -/
theorem foldl_perm_acc {α β : Type _} (f : List α → β → List α)
    (hf : ∀ (acc : List α) (b : β), List.Perm (f acc b) acc) :
    ∀ (l : List β) (acc : List α), List.Perm (l.foldl f acc) acc := by
  intro l
  induction l with
  | nil => intro acc; exact List.Perm.refl acc
  | cons b rest ih =>
      intro acc
      exact List.Perm.trans (ih (f acc b)) (hf acc b)

/-- The sequencer returns a permutation of its input batch. -/
theorem sortDecisionsByPriority_perm (decisions : List Decision) :
    List.Perm (sortDecisionsByPriority decisions) decisions := by
  unfold sortDecisionsByPriority
  split_ifs
  · exact List.Perm.refl decisions
  · exact foldl_perm_acc _
      (fun acc i => foldl_perm_acc _ (fun acc2 j => swapIfGreater_perm acc2 i j) _ acc)
      _ decisions

/-- C2 counterexample: the batch
`[open_long BTC, close_short ETH, decrease_long SOL]` is NOT reordered to
`[decrease_long SOL, close_short ETH, open_long BTC]` as the claim
states. -/
theorem sortDecisions_example_not_spec_order :
    sortDecisionsByPriority
        [mkD "BTCUSDT" "open_long", mkD "ETHUSDT" "close_short",
         mkD "SOLUSDT" "decrease_long"] ≠
      [mkD "SOLUSDT" "decrease_long", mkD "ETHUSDT" "close_short",
       mkD "BTCUSDT" "open_long"] := by
  decide

/-- C2 amended: the sequencer knows only three priority classes —
(1) close_*, (2) open_*, (3) hold/wait — and sends every other action
(decrease_*, increase_*, update_loss_profit) to the back with priority
999; the batch `[open_long BTC, close_short ETH, decrease_long SOL]` is
reordered to `[close_short ETH, open_long BTC, decrease_long SOL]`;
the returned batch is always a permutation of the input. -/
theorem sortDecisions_three_priority_classes :
    (∀ decisions : List Decision,
      List.Perm (sortDecisionsByPriority decisions) decisions) ∧
    getActionPriority "close_long" = 1 ∧ getActionPriority "close_short" = 1 ∧
    getActionPriority "open_long" = 2 ∧ getActionPriority "open_short" = 2 ∧
    getActionPriority "hold" = 3 ∧ getActionPriority "wait" = 3 ∧
    getActionPriority "decrease_long" = 999 ∧
    getActionPriority "decrease_short" = 999 ∧
    getActionPriority "increase_long" = 999 ∧
    getActionPriority "increase_short" = 999 ∧
    getActionPriority "update_loss_profit" = 999 ∧
    sortDecisionsByPriority
        [mkD "BTCUSDT" "open_long", mkD "ETHUSDT" "close_short",
         mkD "SOLUSDT" "decrease_long"] =
      [mkD "ETHUSDT" "close_short", mkD "BTCUSDT" "open_long",
       mkD "SOLUSDT" "decrease_long"] := by
  exact ⟨sortDecisionsByPriority_perm, by decide⟩

/-- C3 counterexample: with the backoff active (now 0 < backoffUntil 10)
the cycle runs no Profit/Loss Controller pass, contradicting the claim
that the controller still runs during backoff. -/
theorem backoff_cycle_drops_controller :
    (0:ℚ) < 10 ∧
    CyclePhase.profitLossController ∉ runCyclePhases true 0 10 0 := by
  constructor
  · norm_num
  · have hrun : runCyclePhases true 0 10 0 = [CyclePhase.persistRecord] := by
      norm_num [runCyclePhases]
    simp [hrun]

/-- C3 amended: in every cycle in which the circuit-breaker backoff is
active, the orchestrator skips the entire remainder of the cycle —
proposal solicitation, decision execution, AND the Profit/Loss
Controller pass — persisting only the cycle record. -/
theorem backoff_skips_whole_cycle (now backoffUntil stopUntil : ℚ)
    (h : now < backoffUntil) :
    runCyclePhases true now backoffUntil stopUntil = [CyclePhase.persistRecord] ∧
    CyclePhase.solicitProposals ∉ runCyclePhases true now backoffUntil stopUntil ∧
    CyclePhase.dispatchDecisions ∉ runCyclePhases true now backoffUntil stopUntil ∧
    CyclePhase.profitLossController ∉ runCyclePhases true now backoffUntil stopUntil := by
  have hrun : runCyclePhases true now backoffUntil stopUntil = [CyclePhase.persistRecord] := by
    simp [runCyclePhases, h]
  refine ⟨hrun, ?_, ?_, ?_⟩ <;> simp [hrun]

theorem backoff_skips_whole_cycle_witness :
    runCyclePhases true 0 10 0 = [CyclePhase.persistRecord] :=
  (backoff_skips_whole_cycle 0 10 0 (by norm_num)).1

/-- C1 counterexample: when the dispatch-time positions re-read fails,
the anti-stacking guard is skipped (the Go guard sits inside
`if err == nil`): with a live long on BTCUSDT already open, the venue
open call is still issued and no anti-stacking error is raised. -/
theorem open_call_after_reread_failure_counterexample :
    (executeOpenLong cfgOff dRR20 [{ symbol := "BTCUSDT", side := "long" }] true 100).calls =
      [VenueCall.openLong "BTCUSDT" 10 5,
       VenueCall.setStopLoss "BTCUSDT" "LONG" 10 98,
       VenueCall.setTakeProfit "BTCUSDT" "LONG" 10 104] ∧
    (executeOpenLong cfgOff dRR20 [{ symbol := "BTCUSDT", side := "long" }] true 100).result ≠
      Except.error ExecError.antiStacking := by
  constructor
  · norm_num [executeOpenLong, cfgOff, dRR20, dRR15]
  · norm_num [executeOpenLong, cfgOff, dRR20, dRR15]
    simp

/-- C1 amended: when the dispatch-time re-read of live positions
succeeds, an open_long (resp. open_short) intent whose (symbol, side)
key already has a live position is rejected with the anti-stacking
error and no venue call is issued; when the re-read fails, the guard is
skipped and the venue open call proceeds regardless of the existing
position. -/
theorem open_rejected_when_position_exists (cfg : TraderConfig) (d : Decision)
    (positions : List LivePos) (currentPrice : ℚ) :
    ((∃ p ∈ positions, p.symbol = d.symbol ∧ p.side = "long") →
      executeOpenLong cfg d positions false currentPrice =
        { calls := [], result := .error .antiStacking }) ∧
    ((∃ p ∈ positions, p.symbol = d.symbol ∧ p.side = "short") →
      executeOpenShort cfg d positions false currentPrice =
        { calls := [], result := .error .antiStacking }) ∧
    ((executeOpenLong cfg d positions true currentPrice).calls.head? =
      some (VenueCall.openLong d.symbol (d.positionSizeUSD / currentPrice) d.leverage)) ∧
    ((executeOpenShort cfg d positions true currentPrice).calls.head? =
      some (VenueCall.openShort d.symbol (d.positionSizeUSD / currentPrice) d.leverage)) := by
  refine ⟨?_, ?_, ?_, ?_⟩
  · intro h
    simp only [executeOpenLong]
    rw [if_pos]
    exact ⟨by simp, by simpa [List.any_eq_true] using h⟩
  · intro h
    simp only [executeOpenShort]
    rw [if_pos]
    exact ⟨by simp, by simpa [List.any_eq_true] using h⟩
  · simp only [executeOpenLong]
    rw [if_neg]
    · rfl
    · rintro ⟨hok, -⟩
      simp at hok
  · simp only [executeOpenShort]
    rw [if_neg]
    · rfl
    · rintro ⟨hok, -⟩
      simp at hok

theorem open_rejected_when_position_exists_witness :
    executeOpenLong cfgOff dRR20 [{ symbol := "BTCUSDT", side := "long" }] false 100 =
      { calls := [], result := .error .antiStacking } ∧
    executeOpenShort cfgOff (mkD "ETHUSDT" "open_short")
        [{ symbol := "ETHUSDT", side := "short" }] false 100 =
      { calls := [], result := .error .antiStacking } :=
  ⟨(open_rejected_when_position_exists cfgOff dRR20
        [{ symbol := "BTCUSDT", side := "long" }] 100).1
      ⟨{ symbol := "BTCUSDT", side := "long" }, by simp, by simp [dRR20, dRR15]⟩,
   (open_rejected_when_position_exists cfgOff (mkD "ETHUSDT" "open_short")
        [{ symbol := "ETHUSDT", side := "short" }] 100).2.1
      ⟨{ symbol := "ETHUSDT", side := "short" }, by simp, by simp [mkD]⟩⟩

/-- C8 counterexample: with current market price 200 and intent entry
price 100 the deviation (100%) far exceeds the 3% tolerance, yet the
dispatcher issues the venue open call (with quantity
positionSizeUSD / currentMarketPrice = 1000/200 = 5) instead of aborting
with a price-drift error. -/
theorem open_no_drift_check_counterexample :
    (3:ℚ)/100 < |(200:ℚ) - dRR20.entryPrice| / dRR20.entryPrice ∧
    (executeOpenLong cfgOff dRR20 [] false 200).calls =
      [VenueCall.openLong "BTCUSDT" 5 5,
       VenueCall.setStopLoss "BTCUSDT" "LONG" 5 98,
       VenueCall.setTakeProfit "BTCUSDT" "LONG" 5 104] := by
  constructor
  · norm_num [dRR20, dRR15]
  · norm_num [executeOpenLong, cfgOff, dRR20, dRR15]

/-- C8 amended: the dispatched quantity is
positionSizeUSD / currentMarketPrice, and no price-drift check exists —
whenever the anti-stacking guard does not reject (because no live
position holds the key, or because the positions re-read failed and the
guard was skipped), the venue open call is issued regardless of the
deviation between the current market price and the intent's entry
price. -/
theorem open_quantity_no_drift_abort (cfg : TraderConfig) (d : Decision)
    (positions : List LivePos) (reReadFailed : Bool) (currentPrice : ℚ) :
    ((reReadFailed = true ∨ ¬∃ p ∈ positions, p.symbol = d.symbol ∧ p.side = "long") →
      (executeOpenLong cfg d positions reReadFailed currentPrice).calls.head? =
        some (VenueCall.openLong d.symbol (d.positionSizeUSD / currentPrice) d.leverage)) ∧
    ((reReadFailed = true ∨ ¬∃ p ∈ positions, p.symbol = d.symbol ∧ p.side = "short") →
      (executeOpenShort cfg d positions reReadFailed currentPrice).calls.head? =
        some (VenueCall.openShort d.symbol (d.positionSizeUSD / currentPrice) d.leverage)) := by
  constructor
  · intro h
    simp only [executeOpenLong]
    rw [if_neg]
    · rfl
    · rintro ⟨hok, hany⟩
      rcases h with h | h
      · exact hok h
      · exact h (by simpa [List.any_eq_true] using hany)
  · intro h
    simp only [executeOpenShort]
    rw [if_neg]
    · rfl
    · rintro ⟨hok, hany⟩
      rcases h with h | h
      · exact hok h
      · exact h (by simpa [List.any_eq_true] using hany)

theorem open_quantity_no_drift_abort_witness :
    (executeOpenLong cfgOff dRR20 [] false 200).calls.head? =
      some (VenueCall.openLong "BTCUSDT" 5 5) := by
  have h := (open_quantity_no_drift_abort cfgOff dRR20 [] false 200).1 (Or.inr (by simp))
  rw [h]
  norm_num [dRR20, dRR15]

/-- Validating `pre ++ d :: post` starting at index `i`, with every
intent of `pre` valid and `d` invalid, yields the error at index
`i + pre.length`. -/
theorem validateDecisionsFrom_append (accountEquity : ℚ) (bl al : ℤ)
    (pre post : List Decision) (d : Decision) (r : RejectReason) (i : ℕ)
    (hpre : ∀ p ∈ pre, validateDecision p accountEquity bl al = .ok ())
    (hd : validateDecision d accountEquity bl al = .error r) :
    validateDecisionsFrom accountEquity bl al i (pre ++ d :: post) =
      .error (i + pre.length, r) := by
  induction pre generalizing i with
  | nil => simp [validateDecisionsFrom, hd]
  | cons p pre ih =>
      have hp : validateDecision p accountEquity bl al = .ok () :=
        hpre p (List.mem_cons_self p pre)
      have hrest : ∀ q ∈ pre, validateDecision q accountEquity bl al = .ok () :=
        fun q hq => hpre q (List.mem_cons_of_mem p hq)
      have harith : i + 1 + pre.length = i + (pre.length + 1) := by omega
      simp [validateDecisionsFrom, hp, ih (i + 1) hrest, harith]

/-- C10 counterexample: the batch `[accepted open_long, open_long with
risk:reward 1.5]` is rejected as a whole — `processDecisionBatch` returns
the validation error of intent #1 and dispatches nothing, contradicting
the claim that the remaining intents are still processed. -/
theorem batch_rejected_whole_counterexample :
    processDecisionBatch [dRR20, dRR15] 10000 10 5 =
      .error (1, .riskRewardTooLow) := by
  norm_num [processDecisionBatch, validateDecisions, validateDecisionsFrom,
    validateDecision, validActions, isOpenOrIncrease, isBlank_c, isBlank_r,
    dRR20, dRR15]

/-- C10 amended: when one intent of a proposed batch fails validation,
the whole batch is discarded — `validateDecisions` stops at the first
failing intent and the cycle aborts with that error, dispatching no
intent of the batch (not even the valid ones before or after it). -/
theorem batch_aborts_at_first_invalid (pre post : List Decision) (d : Decision)
    (accountEquity : ℚ) (bl al : ℤ) (r : RejectReason)
    (hpre : ∀ p ∈ pre, validateDecision p accountEquity bl al = .ok ())
    (hd : validateDecision d accountEquity bl al = .error r) :
    processDecisionBatch (pre ++ d :: post) accountEquity bl al =
      .error (pre.length, r) := by
  have h := validateDecisionsFrom_append accountEquity bl al pre post d r 0 hpre hd
  simp only [processDecisionBatch, validateDecisions]
  rw [h]
  simp

/-- With all gate checks before the risk:reward rule passing, a long
open/increase intent is accepted exactly when the code's
reward/risk quotient is at least 2. -/
theorem validateDecision_long_char (d : Decision) (accountEquity : ℚ)
    (bl al : ℤ)
    (ha : d.action = "open_long" ∨ d.action = "increase_long")
    (hlev0 : 0 < d.leverage)
    (hlev : d.leverage ≤ (if d.symbol = "BTCUSDT" ∨ d.symbol = "ETHUSDT" then bl else al))
    (hsz0 : 0 < d.positionSizeUSD)
    (hsz : d.positionSizeUSD ≤
      (if d.symbol = "BTCUSDT" ∨ d.symbol = "ETHUSDT"
       then accountEquity * 10 else accountEquity * 5) +
      (if d.symbol = "BTCUSDT" ∨ d.symbol = "ETHUSDT"
       then accountEquity * 10 else accountEquity * 5) * (1/100))
    (he : 0 < d.entryPrice) (hs : 0 < d.stopLoss) (ht : 0 < d.takeProfit)
    (hinv : isBlank d.invalidationCondition = false)
    (hd1 : d.stopLoss < d.entryPrice) (hd2 : d.entryPrice < d.takeProfit) :
    validateDecision d accountEquity bl al = .ok () ↔
      2 ≤ ((d.takeProfit - d.entryPrice) / d.entryPrice * 100) /
            ((d.entryPrice - d.stopLoss) / d.entryPrice * 100) := by
  have hmem : d.action ∈ validActions := by
    rcases ha with h1 | h1 <;> simp [validActions, h1]
  have hoi : isOpenOrIncrease d.action := by
    rcases ha with h1 | h1 <;> simp [isOpenOrIncrease, h1]
  have hrisk : 0 < (d.entryPrice - d.stopLoss) / d.entryPrice * 100 :=
    mul_pos (div_pos (sub_pos.mpr hd1) he) (by norm_num)
  simp only [validateDecision]
  rw [if_neg (not_not_intro hmem), if_pos hoi,
    if_neg (by push_neg; exact ⟨by exact_mod_cast hlev0, hlev⟩),
    if_neg (not_le.mpr hsz0), if_neg (not_lt.mpr hsz), if_neg (not_le.mpr he),
    if_neg (by push_neg; exact ⟨hs, ht⟩), if_neg (by simp [hinv]),
    if_pos ha, if_neg (not_le.mpr hd1), if_neg (not_le.mpr hd2),
    if_pos hrisk]
  constructor
  · intro hok
    by_contra hlt
    rw [if_pos (not_le.mp hlt)] at hok
    exact absurd hok (by simp)
  · intro hge
    rw [if_neg (not_lt.mpr hge)]

/-- With all gate checks before the risk:reward rule passing, a short
open/increase intent is accepted exactly when the code's
reward/risk quotient is at least 2. -/
theorem validateDecision_short_char (d : Decision) (accountEquity : ℚ)
    (bl al : ℤ)
    (ha : d.action = "open_short" ∨ d.action = "increase_short")
    (hlev0 : 0 < d.leverage)
    (hlev : d.leverage ≤ (if d.symbol = "BTCUSDT" ∨ d.symbol = "ETHUSDT" then bl else al))
    (hsz0 : 0 < d.positionSizeUSD)
    (hsz : d.positionSizeUSD ≤
      (if d.symbol = "BTCUSDT" ∨ d.symbol = "ETHUSDT"
       then accountEquity * 10 else accountEquity * 5) +
      (if d.symbol = "BTCUSDT" ∨ d.symbol = "ETHUSDT"
       then accountEquity * 10 else accountEquity * 5) * (1/100))
    (he : 0 < d.entryPrice) (hs : 0 < d.stopLoss) (ht : 0 < d.takeProfit)
    (hinv : isBlank d.invalidationCondition = false)
    (hd1 : d.entryPrice < d.stopLoss) (hd2 : d.takeProfit < d.entryPrice) :
    validateDecision d accountEquity bl al = .ok () ↔
      2 ≤ ((d.entryPrice - d.takeProfit) / d.entryPrice * 100) /
            ((d.stopLoss - d.entryPrice) / d.entryPrice * 100) := by
  have hmem : d.action ∈ validActions := by
    rcases ha with h1 | h1 <;> simp [validActions, h1]
  have hoi : isOpenOrIncrease d.action := by
    rcases ha with h1 | h1 <;> simp [isOpenOrIncrease, h1]
  have hnotlong : ¬(d.action = "open_long" ∨ d.action = "increase_long") := by
    rcases ha with h1 | h1 <;> simp [h1]
  have hrisk : 0 < (d.stopLoss - d.entryPrice) / d.entryPrice * 100 :=
    mul_pos (div_pos (sub_pos.mpr hd1) he) (by norm_num)
  simp only [validateDecision]
  rw [if_neg (not_not_intro hmem), if_pos hoi,
    if_neg (by push_neg; exact ⟨by exact_mod_cast hlev0, hlev⟩),
    if_neg (not_le.mpr hsz0), if_neg (not_lt.mpr hsz), if_neg (not_le.mpr he),
    if_neg (by push_neg; exact ⟨hs, ht⟩), if_neg (by simp [hinv]),
    if_neg hnotlong, if_neg (not_le.mpr hd1), if_neg (not_le.mpr hd2),
    if_pos hrisk]
  constructor
  · intro hok
    by_contra hlt
    rw [if_pos (not_le.mp hlt)] at hok
    exact absurd hok (by simp)
  · intro hge
    rw [if_neg (not_lt.mpr hge)]

/-- C5: an open_*/increase_* intent that passes the directional sanity
checks (and thus reaches the risk:reward rule) is accepted by
`validateDecision` iff reward%/risk% ≥ 2, where
risk% = |entry − stop| / entry and reward% = |target − entry| / entry. -/
theorem validator_accepts_iff_risk_reward (d : Decision) (accountEquity : ℚ)
    (bl al : ℤ) (h : passesDirectionalGate d accountEquity bl al) :
    validateDecision d accountEquity bl al = .ok () ↔
      2 ≤ specRewardPct d / specRiskPct d := by
  obtain ⟨hact, hlev0, hlev, hsz0, hsz, he, hs, ht, hinv, hdir⟩ := h
  have hcase : (d.action = "open_long" ∨ d.action = "increase_long") ∨
      (d.action = "open_short" ∨ d.action = "increase_short") := by
    rcases hact with h1 | h1 | h1 | h1 <;> simp [h1]
  rcases hcase with ha | ha
  · rw [if_pos ha] at hdir
    obtain ⟨hd1, hd2⟩ := hdir
    have hspec1 : specRiskPct d = (d.entryPrice - d.stopLoss) / d.entryPrice * 100 := by
      unfold specRiskPct
      rw [abs_of_pos (sub_pos.mpr hd1)]
    have hspec2 : specRewardPct d = (d.takeProfit - d.entryPrice) / d.entryPrice * 100 := by
      unfold specRewardPct
      rw [abs_of_pos (sub_pos.mpr hd2)]
    rw [hspec1, hspec2]
    exact validateDecision_long_char d accountEquity bl al ha hlev0 hlev hsz0 hsz
      he hs ht hinv hd1 hd2
  · have hnotlong : ¬(d.action = "open_long" ∨ d.action = "increase_long") := by
      rcases ha with h1 | h1 <;> simp [h1]
    rw [if_neg hnotlong] at hdir
    obtain ⟨hd1, hd2⟩ := hdir
    have hspec1 : specRiskPct d = (d.stopLoss - d.entryPrice) / d.entryPrice * 100 := by
      unfold specRiskPct
      rw [abs_of_neg (sub_neg.mpr hd1)]
      ring
    have hspec2 : specRewardPct d = (d.entryPrice - d.takeProfit) / d.entryPrice * 100 := by
      unfold specRewardPct
      rw [abs_of_neg (sub_neg.mpr hd2)]
      ring
    rw [hspec1, hspec2]
    exact validateDecision_short_char d accountEquity bl al ha hlev0 hlev hsz0 hsz
      he hs ht hinv hd1 hd2

theorem validator_accepts_iff_risk_reward_witness :
    validateDecision dRR20 10000 10 5 = .ok () ∧
    validateDecision dRR15 10000 10 5 ≠ .ok () := by
  have h20 := validator_accepts_iff_risk_reward dRR20 10000 10 5
    (by norm_num [passesDirectionalGate, isOpenOrIncrease, isBlank_c, dRR20, dRR15])
  have h15 := validator_accepts_iff_risk_reward dRR15 10000 10 5
    (by norm_num [passesDirectionalGate, isOpenOrIncrease, isBlank_c, dRR15])
  constructor
  · exact h20.mpr (by norm_num [specRewardPct, specRiskPct, dRR20, dRR15])
  · intro hok
    have := h15.mp hok
    norm_num [specRewardPct, specRiskPct, dRR15] at this

theorem batch_aborts_at_first_invalid_witness :
    processDecisionBatch [dRR20, dRR15, dRR20] 10000 10 5 =
      .error (1, .riskRewardTooLow) := by
  have h := batch_aborts_at_first_invalid [dRR20] [dRR20] dRR15 10000 10 5
    .riskRewardTooLow
    (by
      intro p hp
      simp only [List.mem_singleton] at hp
      subst hp
      norm_num [validateDecision, validActions, isOpenOrIncrease, isBlank_c,
        dRR20, dRR15])
    (by
      norm_num [validateDecision, validActions, isOpenOrIncrease, isBlank_c,
        dRR15])
  simpa using h

/-- A fold whose body never changes the accumulator returns it. -/
theorem foldl_invariant_id {α β : Type} (f : α → β → α)
    (hf : ∀ a b, f a b = a) (l : List β) (a : α) : l.foldl f a = a := by
  induction l generalizing a with
  | nil => rfl
  | cons b l ih => rw [List.foldl_cons, hf]; exact ih a

/-- With a false equity-decrease flag no vanished position classifies as
a loss. -/
theorem classifyStopLoss_false (p : VanishedPos) :
    classifyStopLoss false p = false := by
  simp [classifyStopLoss]

/-- C7 counterexample: a vanished tracked position with neither a stop
price nor an entry price recorded is classified as a loss on the equity
decrease alone — stopLossCount goes 0 → 1 and a backoff is started —
although the price-side condition the claim requires (against entry
price) does not hold. -/
theorem loss_counted_without_price_cond_counterexample :
    (checkStopLossTriggered cfgBackoff breaker100 5 90 [vanishedNoPrices]).stopLossCount = 1 ∧
    (checkStopLossTriggered cfgBackoff breaker100 5 90 [vanishedNoPrices]).backoffUntil = 50 ∧
    ¬claimedLossPriceCond vanishedNoPrices := by
  refine ⟨?_, ?_, ?_⟩
  · norm_num [checkStopLossTriggered, classifyStopLoss, backoffMinutes,
      cfgBackoff, cfgOff, breaker100, vanishedNoPrices]
  · norm_num [checkStopLossTriggered, classifyStopLoss, backoffMinutes,
      cfgBackoff, cfgOff, breaker100, vanishedNoPrices]
  · norm_num [claimedLossPriceCond, vanishedNoPrices]

/-- C7 amended: (i) when equity has not decreased since the previous
cycle, no vanished position increments stopLossCount and no backoff is
started; (ii) a vanished position classifies as a loss exactly when
equity decreased and either the claimed price-side condition holds
(against the stop price with 5% tolerance, or against the entry price
when no stop was recorded) or neither a stop price nor an entry price
was recorded (in which case the equity decrease alone decides). -/
theorem stop_loss_increment_characterization :
    (∀ (cfg : TraderConfig) (st : BreakerState) (now currentEquity : ℚ)
        (vanished : List VanishedPos),
      ¬(0 < st.lastTotalEquity ∧ currentEquity < st.lastTotalEquity) →
      (checkStopLossTriggered cfg st now currentEquity vanished).stopLossCount =
          st.stopLossCount ∧
      (checkStopLossTriggered cfg st now currentEquity vanished).backoffUntil =
          st.backoffUntil ∧
      (checkStopLossTriggered cfg st now currentEquity vanished).lastStopLossTime =
          st.lastStopLossTime) ∧
    (∀ (equityDecreased : Bool) (p : VanishedPos),
      classifyStopLoss equityDecreased p = true ↔
        (equityDecreased = true ∧
          (claimedLossPriceCond p ∨ (p.stopLossPrice ≤ 0 ∧ p.entryPrice ≤ 0)))) := by
  constructor
  · intro cfg st now currentEquity vanished h
    by_cases hen : cfg.enableExponentialBackoff = true
    · have hdec : decide (0 < st.lastTotalEquity ∧ currentEquity < st.lastTotalEquity) = false :=
        decide_eq_false h
      have hfold :
          vanished.foldl
            (fun s p =>
              if classifyStopLoss
                  (decide (0 < st.lastTotalEquity ∧ currentEquity < st.lastTotalEquity)) p then
                { s with
                  stopLossCount := s.stopLossCount + 1
                  lastStopLossTime := now
                  backoffUntil := now + backoffMinutes cfg (s.stopLossCount + 1) }
              else s)
            st = st := by
        refine foldl_invariant_id _ (fun s p => ?_) vanished st
        rw [hdec, classifyStopLoss_false]
        simp
      simp only [checkStopLossTriggered]
      rw [if_neg (by simp [hen]), hfold]
      exact ⟨rfl, rfl, rfl⟩
    · simp [checkStopLossTriggered, hen]
  · intro equityDecreased p
    cases equityDecreased with
    | false => simp [classifyStopLoss_false]
    | true =>
        by_cases hsl : 0 < p.stopLossPrice
        · by_cases hside : p.side = "long" <;>
            simp [classifyStopLoss, claimedLossPriceCond, hsl, hside, not_le.mpr hsl]
        · by_cases hep : 0 < p.entryPrice
          · by_cases hside : p.side = "long" <;>
              simp [classifyStopLoss, claimedLossPriceCond, hsl, hside, hep,
                not_le.mpr hep, not_lt]
          · by_cases hside : p.side = "long" <;>
              simp [classifyStopLoss, claimedLossPriceCond, hsl, hside, hep,
                not_lt.mp hsl, not_lt.mp hep]

theorem stop_loss_increment_characterization_witness :
    (checkStopLossTriggered cfgBackoff breaker100 5 110 [vanishedNoPrices]).stopLossCount = 0 :=
  (stop_loss_increment_characterization.1 cfgBackoff breaker100 5 110 [vanishedNoPrices]
    (by norm_num [breaker100])).1

/-- The activation block leaves every field except the activation flag
unchanged. -/
theorem trailingActivate_preserves (cfg : TraderConfig) (p : ℚ) (t : PnLTracking) :
    (trailingActivate cfg p t).partialTP50Executed = t.partialTP50Executed ∧
    (trailingActivate cfg p t).partialTP100Executed = t.partialTP100Executed ∧
    (trailingActivate cfg p t).takeProfitPrice = t.takeProfitPrice ∧
    (trailingActivate cfg p t).entryPrice = t.entryPrice ∧
    (trailingActivate cfg p t).maxProfitPct = t.maxProfitPct := by
  unfold trailingActivate
  split_ifs <;> exact ⟨rfl, rfl, rfl, rfl, rfl⟩

/-- The activation flag after the activation block: the old flag or-ed
with this cycle's activation condition. -/
theorem trailingActivate_activated (cfg : TraderConfig) (p : ℚ) (t : PnLTracking) :
    (trailingActivate cfg p t).trailingStopActivated =
      (t.trailingStopActivated ||
        (cfg.enableTrailingStop && decide (cfg.trailingStopActivation * 100 ≤ p))) := by
  unfold trailingActivate
  split_ifs with h
  · obtain ⟨h1, h2, h3⟩ := h
    simp [h1, h3]
  · cases hA : t.trailingStopActivated <;> cases hE : cfg.enableTrailingStop <;>
      simp_all [decide_eq_false_iff_not]

/-- The partial take-profit block never touches the activation flag. -/
theorem partialTPStep_activated (cfg : TraderConfig) (side : String)
    (m q : ℚ) (t : PnLTracking) :
    (partialTPStep cfg side m q t).1.trailingStopActivated = t.trailingStopActivated := by
  simp only [partialTPStep]
  split_ifs <;> rfl

/-- The trailing-stop activation flag after one full controller pass is
the old flag or-ed with this cycle's activation condition. -/
theorem checkPositionTP_activated (cfg : TraderConfig) (side : String)
    (m p q : ℚ) (t : PnLTracking) :
    (checkPositionTP cfg side m p q t).1.trailingStopActivated =
      (t.trailingStopActivated ||
        (cfg.enableTrailingStop && decide (cfg.trailingStopActivation * 100 ≤ p))) := by
  simp only [checkPositionTP]
  split_ifs with h
  · exact trailingActivate_activated cfg p t
  · rw [partialTPStep_activated, trailingActivate_activated]

/-- One orchestrator cycle: the activation flag after the cycle is the
old flag or-ed with this cycle's activation condition. -/
theorem stepPositionCycle_activated (cfg : TraderConfig) (side : String)
    (w : PosWorld) (m p : ℚ) :
    (stepPositionCycle cfg side w m p).1.tracking.trailingStopActivated =
      (w.tracking.trailingStopActivated ||
        (cfg.enableTrailingStop && decide (cfg.trailingStopActivation * 100 ≤ p))) := by
  simp only [stepPositionCycle]
  rw [checkPositionTP_activated]
  rfl

/-- C6: the trailing stop activates one-shot — with the feature enabled,
the flag after a cycle is set iff it was already set or this cycle's
PnL% reached the activation threshold (so it is set the first cycle the
threshold is reached); once set it never reverts across any further run;
once set (or setting this cycle), a cycle whose drawdown from the
tracked peak reaches the configured distance fully closes the position;
and on the PnL path 4% → 6% → 15% → 3% with activation 5% and distance
3% the flag is still unset after the first cycle, set after the second,
no close is issued through the third, and the fourth cycle closes the
full quantity. -/
theorem trailing_stop_one_shot :
    (∀ (cfg : TraderConfig) (side : String) (w : PosWorld) (markPrice pnlPct : ℚ),
      cfg.enableTrailingStop = true →
      ((stepPositionCycle cfg side w markPrice pnlPct).1.tracking.trailingStopActivated = true ↔
        (w.tracking.trailingStopActivated = true ∨
          cfg.trailingStopActivation * 100 ≤ pnlPct))) ∧
    (∀ (cfg : TraderConfig) (side : String) (w : PosWorld) (cycles : List (ℚ × ℚ)),
      w.tracking.trailingStopActivated = true →
      (runPositionCycles cfg side w cycles).1.tracking.trailingStopActivated = true) ∧
    (∀ (cfg : TraderConfig) (side : String) (w : PosWorld) (markPrice pnlPct : ℚ),
      cfg.enableTrailingStop = true →
      (w.tracking.trailingStopActivated = true ∨
        cfg.trailingStopActivation * 100 ≤ pnlPct) →
      cfg.trailingStopDistance ≤
        ((updateExtremes w.tracking pnlPct).maxProfitPct - pnlPct) / 100 →
      (stepPositionCycle cfg side w markPrice pnlPct).2 =
        [TPEvent.trailingClose w.quantity]) ∧
    ((runPositionCycles cfgTrail "long" worldTrail0
        [(0, 4)]).1.tracking.trailingStopActivated = false ∧
     (runPositionCycles cfgTrail "long" worldTrail0
        [(0, 4), (0, 6)]).1.tracking.trailingStopActivated = true ∧
     (runPositionCycles cfgTrail "long" worldTrail0 [(0, 4), (0, 6), (0, 15)]).2 = [] ∧
     (runPositionCycles cfgTrail "long" worldTrail0 [(0, 4), (0, 6), (0, 15), (0, 3)]).2 =
       [TPEvent.trailingClose 1]) := by
  refine ⟨?_, ?_, ?_, ?_⟩
  · intro cfg side w m p hen
    rw [stepPositionCycle_activated, hen]
    simp
  · intro cfg side w cycles hact
    induction cycles generalizing w with
    | nil => simpa [runPositionCycles]
    | cons c rest ih =>
        simp only [runPositionCycles]
        exact ih _ (by rw [stepPositionCycle_activated, hact]; rfl)
  · intro cfg side w m p hen hact htrig
    have h1 : (trailingActivate cfg p (updateExtremes w.tracking p)).trailingStopActivated
        = true := by
      rw [trailingActivate_activated, hen]
      rcases hact with h | h
      · have : (updateExtremes w.tracking p).trailingStopActivated = true := h
        simp [this]
      · simp [h]
    have h2 : (trailingActivate cfg p (updateExtremes w.tracking p)).maxProfitPct =
        (updateExtremes w.tracking p).maxProfitPct :=
      (trailingActivate_preserves cfg p (updateExtremes w.tracking p)).2.2.2.2
    simp only [stepPositionCycle, checkPositionTP]
    rw [if_pos ⟨hen, h1, by rw [h2]; exact htrig⟩]
  · refine ⟨?_, ?_, ?_, ?_⟩ <;>
      norm_num [runPositionCycles, stepPositionCycle, checkPositionTP, trailingActivate,
        partialTPStep, updateExtremes, partialTPTargets, TPEvent.closedQuantity,
        cfgTrail, cfgOff, worldTrail0, trackLong0]

theorem trailing_stop_one_shot_witness :
    (stepPositionCycle cfgTrail "long"
        { tracking := { trackLong0 with
            takeProfitPrice := 0, stopLossPrice := 0, entryPrice := 0,
            maxProfitPct := 15, trailingStopActivated := true }, quantity := 1 }
        0 3).2 = [TPEvent.trailingClose 1] :=
  trailing_stop_one_shot.2.2.1 cfgTrail "long" _ 0 3 rfl (Or.inl rfl)
    (by norm_num [updateExtremes, cfgTrail, cfgOff, trackLong0])

theorem countTP50_append (a b : List TPEvent) :
    countTP50 (a ++ b) = countTP50 a + countTP50 b := by
  simp [countTP50, List.filter_append]

theorem countTP100_append (a b : List TPEvent) :
    countTP100 (a ++ b) = countTP100 a + countTP100 b := by
  simp [countTP100, List.filter_append]

/-- The 50%-target behaviour of the partial take-profit block: at most
one execution per cycle; a set flag suppresses the execution and stays
set; an unset flag after the block means no execution happened. -/
theorem partialTPStep_tp50 (cfg : TraderConfig) (side : String)
    (m q : ℚ) (t : PnLTracking) :
    countTP50 (partialTPStep cfg side m q t).2 ≤ 1 ∧
    (t.partialTP50Executed = true →
      (partialTPStep cfg side m q t).1.partialTP50Executed = true ∧
      countTP50 (partialTPStep cfg side m q t).2 = 0) ∧
    ((partialTPStep cfg side m q t).1.partialTP50Executed = false →
      t.partialTP50Executed = false ∧
      countTP50 (partialTPStep cfg side m q t).2 = 0) := by
  simp only [partialTPStep]
  split_ifs <;> simp_all [countTP50]

/-- The 100%-target behaviour of the partial take-profit block, as for
the 50% target. -/
theorem partialTPStep_tp100 (cfg : TraderConfig) (side : String)
    (m q : ℚ) (t : PnLTracking) :
    countTP100 (partialTPStep cfg side m q t).2 ≤ 1 ∧
    (t.partialTP100Executed = true →
      (partialTPStep cfg side m q t).1.partialTP100Executed = true ∧
      countTP100 (partialTPStep cfg side m q t).2 = 0) ∧
    ((partialTPStep cfg side m q t).1.partialTP100Executed = false →
      t.partialTP100Executed = false ∧
      countTP100 (partialTPStep cfg side m q t).2 = 0) := by
  simp only [partialTPStep]
  split_ifs <;> simp_all [countTP100]

/-- Lifting `partialTPStep_tp50` through the full controller pass. -/
theorem checkPositionTP_tp50 (cfg : TraderConfig) (side : String)
    (m p q : ℚ) (t : PnLTracking) :
    countTP50 (checkPositionTP cfg side m p q t).2 ≤ 1 ∧
    (t.partialTP50Executed = true →
      (checkPositionTP cfg side m p q t).1.partialTP50Executed = true ∧
      countTP50 (checkPositionTP cfg side m p q t).2 = 0) ∧
    ((checkPositionTP cfg side m p q t).1.partialTP50Executed = false →
      t.partialTP50Executed = false ∧
      countTP50 (checkPositionTP cfg side m p q t).2 = 0) := by
  have hpres := (trailingActivate_preserves cfg p t).1
  simp only [checkPositionTP]
  split_ifs with h
  · simp_all [countTP50]
  · have hstep := partialTPStep_tp50 cfg side m q (trailingActivate cfg p t)
    rw [hpres] at hstep
    exact hstep

/-- Lifting `partialTPStep_tp100` through the full controller pass. -/
theorem checkPositionTP_tp100 (cfg : TraderConfig) (side : String)
    (m p q : ℚ) (t : PnLTracking) :
    countTP100 (checkPositionTP cfg side m p q t).2 ≤ 1 ∧
    (t.partialTP100Executed = true →
      (checkPositionTP cfg side m p q t).1.partialTP100Executed = true ∧
      countTP100 (checkPositionTP cfg side m p q t).2 = 0) ∧
    ((checkPositionTP cfg side m p q t).1.partialTP100Executed = false →
      t.partialTP100Executed = false ∧
      countTP100 (checkPositionTP cfg side m p q t).2 = 0) := by
  have hpres := (trailingActivate_preserves cfg p t).2.1
  simp only [checkPositionTP]
  split_ifs with h
  · simp_all [countTP100]
  · have hstep := partialTPStep_tp100 cfg side m q (trailingActivate cfg p t)
    rw [hpres] at hstep
    exact hstep

/-- Lifting the 50%-target behaviour through one orchestrator cycle. -/
theorem stepPositionCycle_tp50 (cfg : TraderConfig) (side : String)
    (w : PosWorld) (m p : ℚ) :
    countTP50 (stepPositionCycle cfg side w m p).2 ≤ 1 ∧
    (w.tracking.partialTP50Executed = true →
      (stepPositionCycle cfg side w m p).1.tracking.partialTP50Executed = true ∧
      countTP50 (stepPositionCycle cfg side w m p).2 = 0) ∧
    ((stepPositionCycle cfg side w m p).1.tracking.partialTP50Executed = false →
      w.tracking.partialTP50Executed = false ∧
      countTP50 (stepPositionCycle cfg side w m p).2 = 0) := by
  have h := checkPositionTP_tp50 cfg side m p w.quantity (updateExtremes w.tracking p)
  have hu : (updateExtremes w.tracking p).partialTP50Executed =
      w.tracking.partialTP50Executed := rfl
  rw [hu] at h
  simpa [stepPositionCycle] using h

/-- Lifting the 100%-target behaviour through one orchestrator cycle. -/
theorem stepPositionCycle_tp100 (cfg : TraderConfig) (side : String)
    (w : PosWorld) (m p : ℚ) :
    countTP100 (stepPositionCycle cfg side w m p).2 ≤ 1 ∧
    (w.tracking.partialTP100Executed = true →
      (stepPositionCycle cfg side w m p).1.tracking.partialTP100Executed = true ∧
      countTP100 (stepPositionCycle cfg side w m p).2 = 0) ∧
    ((stepPositionCycle cfg side w m p).1.tracking.partialTP100Executed = false →
      w.tracking.partialTP100Executed = false ∧
      countTP100 (stepPositionCycle cfg side w m p).2 = 0) := by
  have h := checkPositionTP_tp100 cfg side m p w.quantity (updateExtremes w.tracking p)
  have hu : (updateExtremes w.tracking p).partialTP100Executed =
      w.tracking.partialTP100Executed := rfl
  rw [hu] at h
  simpa [stepPositionCycle] using h

/-- Across any multi-cycle run, the 50%-target fires at most once, and
never once its flag is set. -/
theorem countTP50_run (cfg : TraderConfig) (side : String)
    (cycles : List (ℚ × ℚ)) :
    ∀ w : PosWorld,
      (w.tracking.partialTP50Executed = true →
        countTP50 (runPositionCycles cfg side w cycles).2 = 0) ∧
      countTP50 (runPositionCycles cfg side w cycles).2 ≤ 1 := by
  induction cycles with
  | nil => intro w; simp [runPositionCycles, countTP50]
  | cons c rest ih =>
      intro w
      obtain ⟨hs1, hs2, hs3⟩ := stepPositionCycle_tp50 cfg side w c.1 c.2
      obtain ⟨ihz, ihle⟩ := ih (stepPositionCycle cfg side w c.1 c.2).1
      constructor
      · intro hw
        obtain ⟨hf, hz⟩ := hs2 hw
        simp [runPositionCycles, countTP50_append, hz, ihz hf]
      · by_cases hf :
          (stepPositionCycle cfg side w c.1 c.2).1.tracking.partialTP50Executed = true
        · have hz := ihz hf
          simpa [runPositionCycles, countTP50_append, hz] using hs1
        · have h3 := hs3 (by simpa using hf)
          simpa [runPositionCycles, countTP50_append, h3.2] using ihle

/-- Across any multi-cycle run, the 100%-target fires at most once, and
never once its flag is set. -/
theorem countTP100_run (cfg : TraderConfig) (side : String)
    (cycles : List (ℚ × ℚ)) :
    ∀ w : PosWorld,
      (w.tracking.partialTP100Executed = true →
        countTP100 (runPositionCycles cfg side w cycles).2 = 0) ∧
      countTP100 (runPositionCycles cfg side w cycles).2 ≤ 1 := by
  induction cycles with
  | nil => intro w; simp [runPositionCycles, countTP100]
  | cons c rest ih =>
      intro w
      obtain ⟨hs1, hs2, hs3⟩ := stepPositionCycle_tp100 cfg side w c.1 c.2
      obtain ⟨ihz, ihle⟩ := ih (stepPositionCycle cfg side w c.1 c.2).1
      constructor
      · intro hw
        obtain ⟨hf, hz⟩ := hs2 hw
        simp [runPositionCycles, countTP100_append, hz, ihz hf]
      · by_cases hf :
          (stepPositionCycle cfg side w c.1 c.2).1.tracking.partialTP100Executed = true
        · have hz := ihz hf
          simpa [runPositionCycles, countTP100_append, hz] using hs1
        · have h3 := hs3 (by simpa using hf)
          simpa [runPositionCycles, countTP100_append, h3.2] using ihle

/-- C9: the partial take-profit targets are computed from the entry and
take-profit prices as the claim states (half way for target50, the
take-profit price for target100, mirrored for shorts); each target fires
at most once over any run; and when the mark price overshoots both
targets in one cycle with both flags unset, both executions occur in
that cycle, each exactly once, and both flags are set. -/
theorem partial_tp_targets_and_one_shot :
    (∀ e tp : ℚ, partialTPTargets "long" e tp = (e + (tp - e) * (1/2), tp)) ∧
    (∀ e tp : ℚ, partialTPTargets "short" e tp = (e - (e - tp) * (1/2), tp)) ∧
    (∀ (cfg : TraderConfig) (side : String) (w : PosWorld) (cycles : List (ℚ × ℚ)),
      countTP50 (runPositionCycles cfg side w cycles).2 ≤ 1) ∧
    (∀ (cfg : TraderConfig) (side : String) (w : PosWorld) (cycles : List (ℚ × ℚ)),
      countTP100 (runPositionCycles cfg side w cycles).2 ≤ 1) ∧
    (∀ (cfg : TraderConfig) (side : String) (m p q : ℚ) (t : PnLTracking),
      cfg.enableTrailingStop = false →
      cfg.enablePartialTakeProfit = true →
      0 < t.takeProfitPrice →
      t.partialTP50Executed = false →
      t.partialTP100Executed = false →
      reachedTarget50 side m t →
      reachedTarget100 side m t →
      (checkPositionTP cfg side m p q t).2 =
        [TPEvent.partialTP50 (q * (1/2)), TPEvent.partialTP100 (q * (1/2))] ∧
      (checkPositionTP cfg side m p q t).1.partialTP50Executed = true ∧
      (checkPositionTP cfg side m p q t).1.partialTP100Executed = true) := by
  refine ⟨?_, ?_, ?_, ?_, ?_⟩
  · intro e tp
    simp [partialTPTargets]
  · intro e tp
    simp [partialTPTargets]
  · intro cfg side w cycles
    exact (countTP50_run cfg side cycles w).2
  · intro cfg side w cycles
    exact (countTP100_run cfg side cycles w).2
  · intro cfg side m p q t hT hP htp h50 h100 hr50 hr100
    have ht1 : trailingActivate cfg p t = t := by
      unfold trailingActivate
      rw [if_neg]
      rintro ⟨he, -⟩
      rw [hT] at he
      exact absurd he (by simp)
    simp only [checkPositionTP, ht1]
    rw [if_neg (by rintro ⟨he, -⟩; rw [hT] at he; exact absurd he (by simp))]
    simp only [partialTPStep]
    rw [if_pos ⟨hP, htp⟩]
    have hupd : reachedTarget100 side m ({ t with partialTP50Executed := true }) ↔
        reachedTarget100 side m t := by
      simp [reachedTarget100]
    split_ifs with hA hB hB
    · exact ⟨rfl, rfl, rfl⟩
    · exact absurd ⟨by simp [h100], hupd.mpr hr100⟩ hB
    · exact absurd ⟨by simp [h50], hr50⟩ hA
    · exact absurd ⟨by simp [h50], hr50⟩ hA

theorem partial_tp_targets_and_one_shot_witness :
    partialTPTargets "long" 50000 55000 = (52500, 55000) ∧
    partialTPTargets "short" 3000 2700 = (2850, 2700) ∧
    (checkPositionTP cfgPT "long" 56000 10 1 trackLong0).2 =
      [TPEvent.partialTP50 (1/2), TPEvent.partialTP100 (1/2)] := by
  refine ⟨?_, ?_, ?_⟩
  · rw [partial_tp_targets_and_one_shot.1 50000 55000]
    norm_num
  · rw [partial_tp_targets_and_one_shot.2.1 3000 2700]
    norm_num
  · have h := partial_tp_targets_and_one_shot.2.2.2.2 cfgPT "long" 56000 10 1 trackLong0
      rfl rfl (by norm_num [trackLong0]) rfl rfl
      (by norm_num [reachedTarget50, partialTPTargets, trackLong0])
      (by norm_num [reachedTarget100, partialTPTargets, trackLong0])
    rw [h.1]
    norm_num

/-- C4: evaluating the controller at the failing input — a long with
entry 50000, take-profit 55000 and quantity 1, the 50% target hit in
one cycle (mark 52500) and the 100% target in a later cycle (mark
55000) — the 100%-target execution closes only half the current
quantity: 1/4 of the position stays open, even though
partialTP100Executed is set. -/
theorem partial_tp100_leaves_quarter_open :
    (runPositionCycles cfgPT "long" worldLong0 [(52500, 5), (55000, 10)]).1.quantity = 1/4 ∧
    (runPositionCycles cfgPT "long" worldLong0
        [(52500, 5), (55000, 10)]).1.tracking.partialTP100Executed = true ∧
    (runPositionCycles cfgPT "long" worldLong0 [(52500, 5), (55000, 10)]).2 =
      [TPEvent.partialTP50 (1/2), TPEvent.partialTP100 (1/4)] := by
  refine ⟨?_, ?_, ?_⟩ <;>
    norm_num [runPositionCycles, stepPositionCycle, checkPositionTP, trailingActivate,
      partialTPStep, updateExtremes, partialTPTargets, reachedTarget50, reachedTarget100,
      TPEvent.closedQuantity, cfgPT, cfgOff, worldLong0, trackLong0,
      long_ne_short, short_ne_long]

end Nofx

